import Mathlib

/-!
Verification of the mini-dify backend's retrieval-fusion and workflow engine.

This file shallowly embeds the algorithmic core of the repository:

* `app/services/qdrant_service.py` — `_chunk_text` (sliding-window chunker
  with overlap clamping);
* `app/services/document_service.py` — `split_text_into_chunks` (sliding-window
  chunker with whitespace trimming and empty-chunk dropping);
* `app/services/search_service.py` — `keyword_search` result shaping
  (BM25 normalization) and the fusion core of `hybrid_search`;
* `app/routers/search_router.py` — `search_by_hybrid` weight validation;
* `app/services/rag_service.py` — `format_search_results_as_context`;
* `app/services/workflow_service.py` — node executors, `execute_node`, and the
  `execute_workflow` interpreter loop.

Python text is modelled as `List Char`, Python floats as `ℚ` (the float
rounding error plays no role in any property considered here), Python dicts as
insertion-ordered association lists, and calls to external services
(Elasticsearch, Qdrant, the LLM endpoint, `exec` of operator scripts) as
oracle fields of an environment record.  Fallible code returns `Except` /
`Option`.
-/

/- ============================================================
   Python string primitives
   ============================================================ -/

/-- Clamp a Python slice endpoint into `[0, n]`: a negative index counts from
the end of the string (`n + a`, floored at 0), a non-negative one is capped
at `n`. -/
def pyIdx (n : Int) (a : Int) : Nat :=
  (if a < 0 then max 0 (n + a) else min a n).toNat

/-- Python slice `t[a:b]`. -/
def pySlice (t : List Char) (a b : Int) : List Char :=
  (t.take (pyIdx t.length b)).drop (pyIdx t.length a)

/-- Python `str.strip()`: drop whitespace from both ends.  (Python strips
Unicode whitespace; `Char.isWhitespace` covers the ASCII subset, which is
all the claims exercise.) -/
def pyStrip (t : List Char) : List Char :=
  ((t.dropWhile Char.isWhitespace).reverse.dropWhile Char.isWhitespace).reverse

/- ============================================================
   Chunker 1: app/services/qdrant_service.py::_chunk_text

   def _chunk_text(text, chunk_size, chunk_overlap):
       if chunk_overlap >= chunk_size:
           chunk_overlap = max(0, chunk_size // 4)
       chunks, start, n = [], 0, len(text)
       while start < n:
           end = min(n, start + chunk_size)
           chunks.append(text[start:end])
           if end == n:
               break
           start = max(end - chunk_overlap, start + 1)
       return chunks
   ============================================================ -/

/-- The `while start < n` loop of `_chunk_text`.  It always terminates because
the next `start` is at least `start + 1`. -/
def chunkLoop (text : List Char) (chunk_size chunk_overlap : Int) (start : Int) :
    List (List Char) :=
  if h : start < (text.length : Int) then
    let n : Int := text.length
    let en : Int := min n (start + chunk_size)
    let piece := pySlice text start en
    if en = n then [piece]
    else piece :: chunkLoop text chunk_size chunk_overlap (max (en - chunk_overlap) (start + 1))
  else []
termination_by ((text.length : Int) - start).toNat
decreasing_by
  have h1 : start + 1 ≤ max (min (text.length : Int) (start + chunk_size) - chunk_overlap) (start + 1) :=
    le_max_right _ _
  omega

/-- Embedding of `_chunk_text` from `app/services/qdrant_service.py`.  Note the guard only
fires when `chunk_overlap >= chunk_size`; Python `//` is floor division,
modelled by `Int.fdiv`. -/
def chunk_text (text : List Char) (chunk_size chunk_overlap : Int) : List (List Char) :=
  let ov := if chunk_overlap ≥ chunk_size then max 0 (chunk_size.fdiv 4) else chunk_overlap
  chunkLoop text chunk_size ov 0

/- ============================================================
   Chunker 2: app/services/document_service.py::split_text_into_chunks

   def split_text_into_chunks(text, chunk_size=500, overlap=50):
       if not text or len(text) == 0:
           return []
       chunks = []
       start = 0
       while start < len(text):
           end = start + chunk_size
           chunk = text[start:end].strip()
           if chunk:
               chunks.append(chunk)
           start = end - overlap
           if end >= len(text):
               break
       return chunks

   This loop does NOT always terminate (e.g. `overlap ≥ chunk_size` with a
   long text leaves `start` stuck), so the embedding is fuelled and returns
   `none` when the fuel runs out, modelling divergence.
   ============================================================ -/

def splitLoop (text : List Char) (chunk_size overlap : Int) :
    Nat → Int → Option (List (List Char))
  | 0, _ => none
  | fuel + 1, start =>
    if start < (text.length : Int) then
      let en : Int := start + chunk_size
      let chunk := pyStrip (pySlice text start en)
      let rest := if en ≥ (text.length : Int) then some [] else splitLoop text chunk_size overlap fuel (en - overlap)
      rest.map (fun r => (if chunk = [] then [] else [chunk]) ++ r)
    else some []

/-- Embedding of `split_text_into_chunks` from `app/services/document_service.py`.
`text.length + 1` units of fuel are enough whenever `0 ≤ overlap < chunk_size`
(each iteration advances `start` by `chunk_size - overlap ≥ 1`); in that
regime the result is always `some _` (proved below). -/
def split_text_into_chunks (text : List Char) (chunk_size overlap : Int) :
    Option (List (List Char)) :=
  if text = [] then some []
  else splitLoop text chunk_size overlap (text.length + 1) 0

/- ============================================================
   Python dict primitives (insertion-ordered association lists)
   ============================================================ -/

/-- Python `d.get(k)` / `d[k]` lookup: first binding of `k` (bindings are kept
unique by `pySet`). -/
def pyGet {V : Type} (d : List (String × V)) (k : String) : Option V :=
  (d.find? (fun kv => kv.1 == k)).map (·.2)

/-- Python `d[k] = v`: replace in place when the key exists (Python dicts keep the
original position of an updated key), append otherwise. -/
def pySet {V : Type} (d : List (String × V)) (k : String) (v : V) : List (String × V) :=
  if d.any (fun kv => kv.1 == k) then
    d.map (fun kv => if kv.1 == k then (k, v) else kv)
  else d ++ [(k, v)]

/-- Python `d.update(u)`: fold `pySet` over the entries of `u` in order. -/
def pyUpdate {V : Type} (d u : List (String × V)) : List (String × V) :=
  u.foldl (fun c kv => pySet c kv.1 kv.2) d

/- ============================================================
   Search service: app/services/search_service.py

   `keyword_search` issues an Elasticsearch BM25 query and shapes the
   response; the network call is modelled by handing the function the
   response itself.  `vector_search` is symmetric (its shaped result list is
   taken as given).  `hybrid_search`'s fusion core (Steps 2-4 of the source)
   is a pure function of the two shaped result lists.
   ============================================================ -/

/-- One entry of `response["hits"]["hits"]` in `keyword_search`. -/
structure ESHit where
  es_id : String          -- hit["_id"]
  title : String          -- hit["_source"].get("title", "")
  content : String        -- hit["_source"]["content"]
  chunk_index : Int       -- hit["_source"].get("chunk_index", 0)
  total_chunks : Int      -- hit["_source"].get("total_chunks", 1)
  score : ℚ               -- hit["_score"]
deriving DecidableEq

/-- The part of the Elasticsearch response `keyword_search` reads. -/
structure ESResponse where
  hits : List ESHit
  max_score : Option ℚ    -- response["hits"]["max_score"], None when no hits
deriving DecidableEq

/-- One element of the list returned by `keyword_search`. -/
structure KwHit where
  doc_id : String
  title : String
  content : String
  chunk_index : Int
  total_chunks : Int
  bm25_score : ℚ
  normalized_bm25 : ℚ
deriving DecidableEq

/-- The result-shaping loop of `keyword_search` (source lines 60-72):
`max_score = response["hits"]["max_score"] or 1.0` (Python `or` replaces the
falsy values `None` and `0.0` by `1.0`), then each hit is emitted with
`normalized_bm25 = hit["_score"] / max_score`. -/
def keyword_search_results (resp : ESResponse) : List KwHit :=
  let max_score : ℚ :=
    match resp.max_score with
    | none => 1
    | some m => if m = 0 then 1 else m
  resp.hits.map (fun h =>
    ⟨h.es_id, h.title, h.content, h.chunk_index, h.total_chunks,
      h.score, h.score / max_score⟩)

/-- One element of the list returned by `vector_search` (shaped Qdrant hit). -/
structure VecHit where
  doc_id : String
  title : String
  content : String
  chunk_index : Int
  total_chunks : Int
  cosine_score : ℚ
deriving DecidableEq

/-- A value of the `combined_scores` dict built inside `hybrid_search`
(the `doc_id` key of the dict is carried alongside in the association
list). -/
structure FusedDoc where
  title : String
  content : String
  chunk_index : Int
  total_chunks : Int
  bm25_score : ℚ          -- the *normalized* bm25 score of the keyword hit
  cosine_score : ℚ
  final_score : ℚ
deriving DecidableEq

/-- One element of the list returned by `hybrid_search` (the output dict of
Step 4 of the source). -/
structure FusedResult where
  doc_id : String
  title : String
  content : String
  chunk_index : Int
  total_chunks : Int
  bm25_score : ℚ
  cosine_score : ℚ
  final_score : ℚ
deriving DecidableEq

/-- Step 2 of `hybrid_search`, first loop: seed `combined_scores[doc_id]` from a
keyword hit (`bm25_score` field receives `result["normalized_bm25"]`,
`cosine_score` and `final_score` start at `0.0`). -/
def seedKeyword (acc : List (String × FusedDoc)) (r : KwHit) : List (String × FusedDoc) :=
  pySet acc r.doc_id ⟨r.title, r.content, r.chunk_index, r.total_chunks, r.normalized_bm25, 0, 0⟩

/-- Step 2 of `hybrid_search`, second loop: a vector hit either fills in the
`cosine_score` of an existing entry or creates a new entry with
`bm25_score = 0.0`. -/
def addVector (acc : List (String × FusedDoc)) (r : VecHit) : List (String × FusedDoc) :=
  match pyGet acc r.doc_id with
  | some d => pySet acc r.doc_id { d with cosine_score := r.cosine_score }
  | none =>
      acc ++ [(r.doc_id, ⟨r.title, r.content, r.chunk_index, r.total_chunks, 0, r.cosine_score, 0⟩)]

/-- Step 3 of `hybrid_search`: `final_score = bm25_score*keyword_weight +
cosine_score*vector_weight` for every entry, in dict (= insertion) order. -/
def withFinalScores (kw vw : ℚ) (acc : List (String × FusedDoc)) : List (String × FusedDoc) :=
  acc.map (fun kv => (kv.1, { kv.2 with final_score := kv.2.bm25_score * kw + kv.2.cosine_score * vw }))

/-- Insert an item into a list already sorted by `final_score` descending,
before the first strictly-smaller element.  Folding this over the input from
the right implements `sorted(items, key=final_score, reverse=True)`: Python's
sort is stable, and the stable descending sort is the unique permutation that
is descending in `final_score` with ties kept in original order, which this
insertion sort computes. -/
def insertRanked (x : String × FusedDoc) : List (String × FusedDoc) → List (String × FusedDoc)
  | [] => [x]
  | y :: ys =>
    if x.2.final_score < y.2.final_score then y :: insertRanked x ys
    else x :: y :: ys

/-- Step 4 of `hybrid_search`, the `sorted(..., reverse=True)` call. -/
def sortByFinalDesc (l : List (String × FusedDoc)) : List (String × FusedDoc) :=
  l.foldr insertRanked []

/-- Steps 2-4 of `hybrid_search`: build `combined_scores`, compute final
scores, sort descending, keep entries with `final_score >= min_score`,
truncate to `top_k`, and shape the output dicts. -/
def hybrid_fuse (keyword_results : List KwHit) (vector_results : List VecHit)
    (keyword_weight vector_weight min_score : ℚ) (top_k : Nat) : List FusedResult :=
  let combined := keyword_results.foldl seedKeyword []
  let combined := vector_results.foldl addVector combined
  let combined := withFinalScores keyword_weight vector_weight combined
  let ranked := sortByFinalDesc combined
  let filtered := ranked.filterMap (fun kv =>
    if min_score ≤ kv.2.final_score then
      some ⟨kv.1, kv.2.title, kv.2.content, kv.2.chunk_index, kv.2.total_chunks,
            kv.2.bm25_score, kv.2.cosine_score, kv.2.final_score⟩
    else none)
  filtered.take top_k

/-- The external data `hybrid_search` Step 1 obtains: the Elasticsearch
response consumed by `keyword_search` and the shaped Qdrant results returned
by `vector_search` (both issued with `top_k*2` candidates and threshold 0,
which only conditions what the services send back). -/
structure SearchEnv where
  esResponse : ESResponse
  vectorResults : List VecHit

/-- Embedding of `hybrid_search` from `app/services/search_service.py` as a function of
the external responses. -/
def hybrid_search (env : SearchEnv) (top_k : Nat)
    (keyword_weight vector_weight min_score : ℚ) : List FusedResult :=
  hybrid_fuse (keyword_search_results env.esResponse) env.vectorResults
    keyword_weight vector_weight min_score top_k

/-- Embedding of `search_by_hybrid` from `app/routers/search_router.py`: the handler
raises `ValueError("keyword_weight + vector_weight must equal 1.0")` when
`abs(keyword_weight + vector_weight - 1.0) > 0.01`, which the route converts
into an HTTP 400 carrying the message; otherwise it calls `hybrid_search` and
returns the result set.  `Except.error` models the 400 response (no fusion
performed, no result set). -/
def search_by_hybrid (env : SearchEnv) (query : String) (top_k : Nat)
    (keyword_weight vector_weight min_score : ℚ) :
    Except String (List FusedResult) :=
  if |keyword_weight + vector_weight - 1| > 1/100 then
    Except.error "keyword_weight + vector_weight must equal 1.0"
  else
    Except.ok (hybrid_search env top_k keyword_weight vector_weight min_score)

/- ============================================================
   RAG orchestrator: app/services/rag_service.py
   ============================================================ -/

/-- A value inside a search-result dict as seen by the formatter:
a string or a number. -/
inductive HVal where
  | s : String → HVal
  | q : ℚ → HVal
deriving DecidableEq

/-- The dict literally built for each result in Step 4 of `hybrid_search`
(keys in source order).  Note there is no `"score"` key. -/
def FusedResult.toDict (r : FusedResult) : List (String × HVal) :=
  [("doc_id", HVal.s r.doc_id), ("title", HVal.s r.title), ("content", HVal.s r.content),
   ("chunk_index", HVal.q r.chunk_index), ("total_chunks", HVal.q r.total_chunks),
   ("bm25_score", HVal.q r.bm25_score), ("cosine_score", HVal.q r.cosine_score),
   ("final_score", HVal.q r.final_score)]

/-- Render an `HVal` as Python's f-string would (`str` of the value); only
ever applied to string values in this development. -/
def HVal.render : HVal → String
  | HVal.s v => v
  | HVal.q v => toString v

/-- Python `f"{x:.2f}"` for a number: fixed-point with two decimals.
Python rounds the underlying binary float to even; this model rounds half
up, which agrees everywhere except exact `.005` boundaries — no claim
evaluates one. -/
def formatFloat2 (x : ℚ) : String :=
  let c : Int := ⌊x * 100 + 1/2⌋
  let sign := if c < 0 then "-" else ""
  let a := c.natAbs
  sign ++ toString (a / 100) ++ "." ++ (if a % 100 < 10 then "0" else "") ++ toString (a % 100)

/-- Value of `result.get("title", "제목 없음")` as rendered into the paragraph. -/
def dictTitle (d : List (String × HVal)) : String :=
  ((pyGet d "title").getD (HVal.s "제목 없음")).render

/-- Value of `result.get("content", "")` as rendered into the paragraph. -/
def dictContent (d : List (String × HVal)) : String :=
  ((pyGet d "content").getD (HVal.s "")).render

/-- Value of `score = result.get("score", 0)` — the numeric value later formatted
with `:.2f` (a non-numeric value under `"score"` would make Python raise;
no producer in this repository emits one). -/
def dictScore (d : List (String × HVal)) : ℚ :=
  match pyGet d "score" with
  | some (HVal.q q) => q
  | some (HVal.s _) => 0
  | none => 0

/-- The three `context_parts` entries appended for hit number `idx`
(1-based, from `enumerate(results, 1)`). -/
def hitParagraph (idx : Nat) (d : List (String × HVal)) : List String :=
  ["\n[문서 " ++ toString idx ++ "] (관련도: " ++ formatFloat2 (dictScore d) ++ ")",
   "제목: " ++ dictTitle d,
   "내용: " ++ dictContent d ++ "\n"]

/-- Embedding of `format_search_results_as_context` from `app/services/rag_service.py`. -/
def format_search_results_as_context (results : List (List (String × HVal))) : String :=
  if results = [] then "검색된 관련 문서가 없습니다."
  else
    String.intercalate "\n"
      ("다음은 검색된 관련 문서입니다:\n" ::
        (results.enum.map (fun p => hitParagraph (p.1 + 1) p.2)).flatten)

/- ============================================================
   Workflow engine: app/services/workflow_service.py
   and app/models/workflow.py
   ============================================================ -/

/-- Embedding of `NodeType` from `app/models/workflow.py` (`variable_`/`end_` stand for the
Python enum values `"variable"`/`"end"`, which are keywords in Lean). -/
inductive NodeType where
  | start
  | knowledge_retrieval
  | llm
  | code
  | condition
  | http_request
  | variable_
  | end_
deriving DecidableEq

/-- The Python-enum value string of a `NodeType`. -/
def NodeType.pyStr : NodeType → String
  | NodeType.start => "start"
  | NodeType.knowledge_retrieval => "knowledge_retrieval"
  | NodeType.llm => "llm"
  | NodeType.code => "code"
  | NodeType.condition => "condition"
  | NodeType.http_request => "http_request"
  | NodeType.variable_ => "variable"
  | NodeType.end_ => "end"

/-- A Python value held in the execution context: a string, or an opaque
stand-in for any other value (numbers, result lists, nested dicts, ...),
which the engine loop itself never inspects. -/
inductive PyVal where
  | vStr : String → PyVal
  | vOpq : Nat → PyVal
deriving DecidableEq

/-- The execution context and node output dicts: `Dict[str, Any]`. -/
abbrev Ctx := List (String × PyVal)

/-- Embedding of `NodeConfig` from `app/models/workflow.py` (every field optional). -/
structure NodeConfig where
  search_type : Option String := none
  top_k : Option Int := none
  model : Option String := none
  system_prompt : Option String := none
  temperature : Option ℚ := none
  code : Option String := none
  condition : Option String := none
  url : Option String := none
  method : Option String := none
  variables_ : Option Ctx := none   -- `variables` in the source (a reserved token in Lean)
deriving DecidableEq

/-- Embedding of `WorkflowNode` from `app/models/workflow.py`. -/
structure WorkflowNode where
  id : String
  type : NodeType
  name : String
  config : NodeConfig
  next_nodes : List String
deriving DecidableEq

/-- Embedding of `WorkflowDefinition` from `app/models/workflow.py`. -/
structure WorkflowDefinition where
  workflow_id : String
  name : String
  description : Option String
  nodes : List WorkflowNode
  start_node_id : String

/-- Embedding of `NodeExecutionResult` from `app/models/workflow.py`.
`execution_time_ms` (wall-clock time) is not modelled. -/
structure NodeExecutionResult where
  node_id : String
  node_name : String
  node_type : NodeType
  output : Ctx
  success : Bool
  error : Option String
deriving DecidableEq

/-- The dict returned by `execute_workflow`. `execution_id` (a fresh UUID)
and `total_execution_time_ms` (wall-clock time) are not modelled. -/
structure WorkflowRunResult where
  workflow_id : String
  workflow_name : String
  input_data : Ctx
  output_data : Ctx
  nodes_executed : List NodeExecutionResult
  success : Bool
deriving DecidableEq

/-- The effectful boundary of the node executors.  A call that Python
completes normally is `.ok` with the executor's output dict; a call that
raises is `.error` with the exception message.

* `runSearchNode` stands for `execute_knowledge_retrieval_node`: its output
  is determined by the external search services, and any of its awaited
  calls may raise.
* `runLLMNode` likewise stands for `execute_llm_node`.
* `runScript` stands for the `exec(code, {"__builtins__": {}}, local_vars)`
  call inside `execute_code_node` together with the
  `local_vars.get("result", {})` read: `.ok r` is the populated result dict,
  `.error e` a raised exception with message `str(e)`. -/
structure WorkflowEnv where
  runSearchNode : WorkflowNode → Ctx → Except String Ctx
  runLLMNode : WorkflowNode → Ctx → Except String Ctx
  runScript : String → Ctx → Except String Ctx

/-- Embedding of `execute_code_node`: run the operator script and catch every exception,
returning `{"error": str(e)}` instead of raising. -/
def execute_code_node (env : WorkflowEnv) (node : WorkflowNode) (context : Ctx) : Ctx :=
  let code := node.config.code.getD ""
  match env.runScript code context with
  | Except.ok r => r
  | Except.error e => [("error", PyVal.vStr e)]

/-- Embedding of `execute_variable_node`: `variables = node.config.variables or ()` (an empty dict),
returned as the output dict; never raises. -/
def execute_variable_node (node : WorkflowNode) : Ctx :=
  node.config.variables_.getD []

/-- The typed dispatch in the `try` block of `execute_node`: `.error` means
the executor raised and control passes to the `except` clause. -/
def nodeBody (env : WorkflowEnv) (node : WorkflowNode) (context : Ctx) : Except String Ctx :=
  match node.type with
  | NodeType.knowledge_retrieval => env.runSearchNode node context
  | NodeType.llm => env.runLLMNode node context
  | NodeType.code => Except.ok (execute_code_node env node context)
  | NodeType.variable_ => Except.ok (execute_variable_node node)
  | NodeType.start => Except.ok []
  | NodeType.end_ => Except.ok []
  | t => Except.ok [("error", PyVal.vStr ("Unsupported node type: " ++ t.pyStr))]

/-- Embedding of `execute_node` from `app/services/workflow_service.py`: wrap the typed
dispatch in a result record; an exception yields `success=False`, empty
output and the message in `error`. -/
def execute_node (env : WorkflowEnv) (node : WorkflowNode) (context : Ctx) :
    NodeExecutionResult :=
  match nodeBody env node context with
  | Except.ok output => ⟨node.id, node.name, node.type, output, true, none⟩
  | Except.error e => ⟨node.id, node.name, node.type, [], false, some e⟩

/-- Python `node_map` dict comprehension over `workflow.nodes` followed by
`node_map.get(i)`: the last node with a given id wins, as in a Python dict
comprehension. -/
def nodeMapGet (nodes : List WorkflowNode) (i : String) : Option WorkflowNode :=
  nodes.foldl (fun acc n => if n.id = i then some n else acc) none

/-- The `while current_node_id and iteration < max_iterations` loop of
`execute_workflow`.  `fuel` is `max_iterations - iteration`, so the loop
guard `iteration < max_iterations` is `0 < fuel`; the guard
`current_node_id` is Python string truthiness, i.e. `nid ≠ ""`.  Returns the
final `(context, execution_results)`. -/
def workflowLoop (env : WorkflowEnv) (nodes : List WorkflowNode) :
    Nat → String → Ctx → List NodeExecutionResult → Ctx × List NodeExecutionResult
  | 0, _, context, results => (context, results)
  | fuel + 1, nid, context, results =>
    if nid = "" then (context, results)
    else
      match nodeMapGet nodes nid with
      | none => (context, results)              -- "Node not found" → break
      | some node =>
        let r := execute_node env node context
        let results' := results ++ [r]
        if r.success then
          let context' := pyUpdate context r.output
          if node.type = NodeType.end_ then (context', results')
          else
            match node.next_nodes with
            | [] => (context', results')
            | nid2 :: _ => workflowLoop env nodes fuel nid2 context' results'
        else (context, results')                -- "Node failed" → break

/-- The source's `max_iterations = 50`. -/
def max_iterations : Nat := 50

/-- Embedding of `execute_workflow` from `app/services/workflow_service.py`:
run the loop from `start_node_id` over a copy of `input_data` and assemble
the response; `success = all(r.success for r in execution_results)`. -/
def execute_workflow (env : WorkflowEnv) (workflow : WorkflowDefinition)
    (input_data : Ctx) : WorkflowRunResult :=
  let out := workflowLoop env workflow.nodes max_iterations workflow.start_node_id input_data []
  { workflow_id := workflow.workflow_id
    workflow_name := workflow.name
    input_data := input_data
    output_data := out.1
    nodes_executed := out.2
    success := out.2.all (fun r => r.success) }

/-- Instrumented replay of `workflowLoop` that reports whether the run ends
through the `current_node is None` branch (the `Node not found` break).
Identical recursion structure to `workflowLoop`; used only to *state* which
runs halt on a missing node. -/
def loopHaltsOnMissing (env : WorkflowEnv) (nodes : List WorkflowNode) :
    Nat → String → Ctx → Bool
  | 0, _, _ => false
  | fuel + 1, nid, context =>
    if nid = "" then false
    else
      match nodeMapGet nodes nid with
      | none => true
      | some node =>
        let r := execute_node env node context
        if r.success then
          if node.type = NodeType.end_ then false
          else
            match node.next_nodes with
            | [] => false
            | nid2 :: _ => loopHaltsOnMissing env nodes fuel nid2 (pyUpdate context r.output)
        else false

/- ============================================================
   Concrete fixtures used by individual claims
   ============================================================ -/

/-- Scenario A of the specification: lexical hits `doc1` (raw 9.0) and `doc2`
(raw 3.0) with reported max 9.0; vector hits `doc2` (0.9) and `doc3` (0.5). -/
def scenarioAEnv : SearchEnv :=
  { esResponse := { hits := [⟨"doc1", "t1", "c1", 0, 1, 9⟩, ⟨"doc2", "t2", "c2", 0, 1, 3⟩],
                    max_score := some 9 },
    vectorResults := [⟨"doc2", "t2", "c2", 0, 1, 9/10⟩, ⟨"doc3", "t3", "c3", 0, 1, 1/2⟩] }

/-- An environment whose external calls all succeed with empty outputs. -/
def noopEnv : WorkflowEnv :=
  ⟨fun _ _ => Except.ok [], fun _ _ => Except.ok [], fun _ _ => Except.ok []⟩

/-- An environment whose LLM endpoint raises. -/
def errLLMEnv : WorkflowEnv :=
  ⟨fun _ _ => Except.ok [], fun _ _ => Except.error "LLM unreachable", fun _ _ => Except.ok []⟩

/-- An environment where executing an operator script raises. -/
def errScriptEnv : WorkflowEnv :=
  ⟨fun _ _ => Except.ok [], fun _ _ => Except.ok [],
   fun _ _ => Except.error "name x is not defined"⟩

/-- A two-node workflow whose `next_nodes` chain cycles: `a → b → a`. -/
def cycleWorkflow : WorkflowDefinition :=
  ⟨"wf_cycle", "cycle", none,
   [⟨"a", NodeType.variable_, "A", {}, ["b"]⟩,
    ⟨"b", NodeType.variable_, "B", {}, ["a"]⟩],
   "a"⟩

/-- A workflow whose `start_node_id` matches no node. -/
def ghostWorkflow : WorkflowDefinition :=
  ⟨"wf_ghost", "ghost", none,
   [⟨"a", NodeType.variable_, "A", {}, []⟩],
   "zz"⟩

/-- A three-node workflow `a (variable) → b (llm) → c (variable)`; under
`errLLMEnv` node `b` is the first to fail. -/
def failMidWorkflow : WorkflowDefinition :=
  ⟨"wf_fail", "fail", none,
   [⟨"a", NodeType.variable_, "A", { variables_ := some [("x", PyVal.vStr "1")] }, ["b"]⟩,
    ⟨"b", NodeType.llm, "B", {}, ["c"]⟩,
    ⟨"c", NodeType.variable_, "C", {}, []⟩],
   "a"⟩

/-- A `code` node whose script raises under `errScriptEnv`. -/
def codeNodeA : WorkflowNode :=
  ⟨"a", NodeType.code, "A", { code := some "x = 1/0" }, ["b"]⟩

/-- A workflow whose first node is a `code` node followed by a `variable`
node. -/
def codeWorkflow : WorkflowDefinition :=
  ⟨"wf_code", "code", none,
   [codeNodeA,
    ⟨"b", NodeType.variable_, "B", { variables_ := some [("y", PyVal.vStr "2")] }, []⟩],
   "a"⟩

/- ============================================================
   Theorems
   ============================================================ -/

section ChunkerClaims

/-- Fuel sufficiency and chunk shape for the `split_text_into_chunks` loop in
the valid-parameter regime `0 ≤ overlap < size`: the loop finishes within the
given fuel, every emitted chunk is a trimmed window and is non-empty. -/
theorem splitLoop_sound (text : List Char) (size overlap : Int)
    (ho : overlap < size) :
    ∀ (fuel : Nat) (start : Int), (text.length : Int) - start < fuel → 0 < fuel →
      ∃ cs, splitLoop text size overlap fuel start = some cs ∧
        ∀ c ∈ cs, c ≠ [] ∧ ∃ st : Int, c = pyStrip (pySlice text st (st + size)) := by
  intro fuel
  induction fuel with
  | zero => intro start h1 h2; omega
  | succ fuel ih =>
    intro start h1 _
    by_cases hlt : start < (text.length : Int)
    · by_cases hend : start + size ≥ (text.length : Int)
      · refine ⟨(if pyStrip (pySlice text start (start + size)) = [] then []
            else [pyStrip (pySlice text start (start + size))]), ?_, ?_⟩
        · simp [splitLoop, hlt, hend]
        · intro c hc
          by_cases hch : pyStrip (pySlice text start (start + size)) = []
          · simp [hch] at hc
          · simp [hch] at hc
            exact ⟨hc ▸ hch, start, hc⟩
      · have hrec : (text.length : Int) - (start + size - overlap) < fuel := by omega
        have hpos : 0 < fuel := by omega
        obtain ⟨cs, hcs, hprop⟩ := ih (start + size - overlap) hrec hpos
        refine ⟨(if pyStrip (pySlice text start (start + size)) = [] then []
            else [pyStrip (pySlice text start (start + size))]) ++ cs, ?_, ?_⟩
        · simp [splitLoop, hlt, hend, hcs]
        · intro c hc
          rw [List.mem_append] at hc
          rcases hc with hc | hc
          · by_cases hch : pyStrip (pySlice text start (start + size)) = []
            · simp [hch] at hc
            · simp [hch] at hc
              exact ⟨hc ▸ hch, start, hc⟩
          · exact hprop c hc
    · exact ⟨[], by simp [splitLoop, hlt], by simp⟩

/-- Claim C8: for `size > 0` and `0 ≤ overlap < size`, `split_text_into_chunks`
terminates, each produced chunk is a window `text[start:start+size]` trimmed of
surrounding whitespace, windows empty after trimming are dropped (hence no
returned chunk is empty), and empty input yields the empty sequence. -/
theorem c8_chunks_are_trimmed_windows (text : List Char) (size overlap : Int)
    (hs : 0 < size) (ho0 : 0 ≤ overlap) (ho : overlap < size) :
    ∃ cs, split_text_into_chunks text size overlap = some cs
      ∧ (∀ c ∈ cs, c ≠ [] ∧ ∃ st : Int, c = pyStrip (pySlice text st (st + size)))
      ∧ (text = [] → cs = []) := by
  by_cases htext : text = []
  · exact ⟨[], by simp [split_text_into_chunks, htext], by simp, fun _ => rfl⟩
  · obtain ⟨cs, hcs, hprop⟩ :=
      splitLoop_sound text size overlap ho (text.length + 1) 0 (by omega) (by omega)
    exact ⟨cs, by simp [split_text_into_chunks, htext, hcs], hprop, fun h => absurd h htext⟩

/-- Witness for C8 at `text = "ab cd"`, `size = 3`, `overlap = 1`. -/
theorem c8_chunks_are_trimmed_windows_witness :
    (0 : Int) < 3 ∧ (0 : Int) ≤ 1 ∧ (1 : Int) < 3 ∧
      ∃ cs, split_text_into_chunks "ab cd".toList 3 1 = some cs
        ∧ (∀ c ∈ cs, c ≠ [] ∧ ∃ st : Int, c = pyStrip (pySlice "ab cd".toList st (st + 3)))
        ∧ ("ab cd".toList = [] → cs = []) :=
  ⟨by decide, by decide, by decide,
    c8_chunks_are_trimmed_windows "ab cd".toList 3 1 (by decide) (by decide) (by decide)⟩

/-- Claim C4, counterexample: `overlap = -2` violates `0 ≤ overlap < size`
for `size = 4`, yet `_chunk_text` does not clamp it to `size // 4 = 1` — the
results differ (`["abcd","gh"]` with the negative overlap versus
`["abcd","defg","gh"]` with the clamped one). -/
theorem c4_clamp_counterexample :
    ((0:Int) < 4 ∧ ¬(0 ≤ (-2:Int) ∧ (-2:Int) < 4)) ∧
      Int.fdiv 4 4 = 1 ∧
      chunk_text "abcdefgh".toList 4 (-2) ≠ chunk_text "abcdefgh".toList 4 1 := by
  refine ⟨by decide, by decide, ?_⟩
  simp [chunk_text, chunkLoop, pySlice, pyIdx]

/-- Claim C4 as amended: the silent clamp of `overlap` to
`max 0 (size // 4)` happens exactly when `overlap ≥ size`; a negative
`overlap` is used unchanged (the run still proceeds without failing — the
loop is total — it just advances the window start past the previous end). -/
theorem c4_clamp_only_when_overlap_ge_size (text : List Char) (size overlap : Int)
    (hs : 0 < size) :
    (overlap ≥ size → chunk_text text size overlap = chunk_text text size (max 0 (size.fdiv 4))) ∧
    (overlap < 0 → chunk_text text size overlap = chunkLoop text size overlap 0) := by
  have h4 : Int.fdiv size 4 < size := by
    have hconv : Int.fdiv size 4 = size / 4 := Int.fdiv_eq_ediv size (by omega)
    omega
  constructor
  · intro hov
    have hcl : ¬ (max 0 (size.fdiv 4) ≥ size) := by
      simp only [ge_iff_le, not_le, max_lt_iff]
      exact ⟨hs, h4⟩
    simp only [chunk_text, if_pos hov, if_neg hcl]
  · intro hneg
    have hno : ¬ (overlap ≥ size) := by omega
    simp only [chunk_text, if_neg hno]

/-- Witness for the amended C4 at `text = "abcdefgh"`, `size = 4`,
`overlap = 5 ≥ 4`. -/
theorem c4_clamp_only_when_overlap_ge_size_witness :
    (0:Int) < 4 ∧ ((5:Int) ≥ 4) ∧
      chunk_text "abcdefgh".toList 4 5 = chunk_text "abcdefgh".toList 4 (max 0 (Int.fdiv 4 4)) :=
  ⟨by decide, by decide,
    (c4_clamp_only_when_overlap_ge_size "abcdefgh".toList 4 5 (by decide)).1 (by decide)⟩

end ChunkerClaims

section FusionClaims

/-- Entry-wise invariant of the `combined_scores` dict: non-negative
normalized bm25 score and a cosine score in `[0,1]`. -/
def entryScoresOK (kv : String × FusedDoc) : Prop :=
  0 ≤ kv.2.bm25_score ∧ 0 ≤ kv.2.cosine_score ∧ kv.2.cosine_score ≤ 1

theorem pySet_forall {V : Type} (P : String × V → Prop) (d : List (String × V))
    (k : String) (v : V) (hd : ∀ x ∈ d, P x) (hv : P (k, v)) :
    ∀ x ∈ pySet d k v, P x := by
  unfold pySet
  split
  · intro x hx
    rw [List.mem_map] at hx
    obtain ⟨y, hy, rfl⟩ := hx
    by_cases hk : y.1 == k
    · simpa [hk] using hv
    · simpa [hk] using hd y hy
  · intro x hx
    rcases List.mem_append.mp hx with h | h
    · exact hd x h
    · rw [List.mem_singleton] at h
      exact h ▸ hv

theorem pyGet_mem {V : Type} (d : List (String × V)) (k : String) (v : V)
    (h : pyGet d k = some v) : ∃ k', (k', v) ∈ d := by
  unfold pyGet at h
  rw [Option.map_eq_some'] at h
  obtain ⟨kv, hfind, rfl⟩ := h
  exact ⟨kv.1, by simpa using List.mem_of_find?_eq_some hfind⟩

theorem seedKeyword_inv (hits : List KwHit) :
    ∀ acc, (∀ h ∈ hits, 0 ≤ h.normalized_bm25) → (∀ x ∈ acc, entryScoresOK x) →
      ∀ x ∈ hits.foldl seedKeyword acc, entryScoresOK x := by
  induction hits with
  | nil => intro acc _ hacc; simpa using hacc
  | cons h hs ih =>
    intro acc hh hacc
    simp only [List.foldl_cons]
    refine ih _ (fun h' hm => hh h' (List.mem_cons_of_mem _ hm)) ?_
    refine pySet_forall _ _ _ _ hacc ?_
    exact ⟨hh h (List.mem_cons_self _ _), le_refl 0, by norm_num⟩

theorem addVector_inv (hits : List VecHit) :
    ∀ acc, (∀ h ∈ hits, 0 ≤ h.cosine_score ∧ h.cosine_score ≤ 1) →
      (∀ x ∈ acc, entryScoresOK x) →
      ∀ x ∈ hits.foldl addVector acc, entryScoresOK x := by
  induction hits with
  | nil => intro acc _ hacc; simpa using hacc
  | cons h hs ih =>
    intro acc hh hacc
    simp only [List.foldl_cons]
    refine ih _ (fun h' hm => hh h' (List.mem_cons_of_mem _ hm)) ?_
    unfold addVector
    cases hget : pyGet acc h.doc_id with
    | some d =>
      refine pySet_forall _ _ _ _ hacc ?_
      obtain ⟨k', hmem⟩ := pyGet_mem acc h.doc_id d hget
      have hd := hacc _ hmem
      exact ⟨hd.1, (hh h (List.mem_cons_self _ _)).1, (hh h (List.mem_cons_self _ _)).2⟩
    | none =>
      intro x hx
      rcases List.mem_append.mp hx with hm | hm
      · exact hacc x hm
      · rw [List.mem_singleton] at hm
        subst hm
        exact ⟨le_refl 0, (hh h (List.mem_cons_self _ _)).1, (hh h (List.mem_cons_self _ _)).2⟩

theorem mem_insertRanked (x y : String × FusedDoc) (l : List (String × FusedDoc)) :
    x ∈ insertRanked y l ↔ x = y ∨ x ∈ l := by
  induction l with
  | nil => simp [insertRanked]
  | cons z zs ih =>
    unfold insertRanked
    split
    · simp only [List.mem_cons, ih]
      tauto
    · rw [List.mem_cons]

theorem mem_sortByFinalDesc (x : String × FusedDoc) (l : List (String × FusedDoc)) :
    x ∈ sortByFinalDesc l ↔ x ∈ l := by
  unfold sortByFinalDesc
  induction l with
  | nil => simp
  | cons z zs ih =>
    simp only [List.foldr_cons, List.mem_cons, mem_insertRanked, ih]

/-- Claim C6 as amended: with non-negative weights whose sum is within 0.01
of 1.0, and raw lexical scores non-negative (hence non-negative normalized
scores) and vector scores in `[0,1]`, every fused hit's `final_score`
equals `bm25_score * keyword_weight + cosine_score * vector_weight` exactly
and lies in `[0, (kw+vw) * max(lexical, vector)]`, hence in
`[0, 1.01 * max(lexical, vector)]` — but not necessarily below
`max(lexical, vector)` itself. -/
theorem c6_final_score_formula_and_bound
    (kwHits : List KwHit) (vecHits : List VecHit)
    (kw vw min_score : ℚ) (top_k : Nat)
    (hkw : 0 ≤ kw) (hvw : 0 ≤ vw) (hsum : |kw + vw - 1| ≤ 1/100)
    (hlex : ∀ h ∈ kwHits, 0 ≤ h.normalized_bm25)
    (hvec : ∀ h ∈ vecHits, 0 ≤ h.cosine_score ∧ h.cosine_score ≤ 1) :
    ∀ r ∈ hybrid_fuse kwHits vecHits kw vw min_score top_k,
      r.final_score = r.bm25_score * kw + r.cosine_score * vw ∧
      0 ≤ r.final_score ∧
      r.final_score ≤ (kw + vw) * max r.bm25_score r.cosine_score ∧
      r.final_score ≤ (1 + 1/100) * max r.bm25_score r.cosine_score := by
  intro r hr
  have hinv : ∀ x ∈ vecHits.foldl addVector (kwHits.foldl seedKeyword []), entryScoresOK x :=
    addVector_inv vecHits _ hvec (seedKeyword_inv kwHits [] hlex (by simp))
  unfold hybrid_fuse at hr
  simp only at hr
  have hr' := List.mem_of_mem_take hr
  rw [List.mem_filterMap] at hr'
  obtain ⟨kv, hkv, hsome⟩ := hr'
  rw [mem_sortByFinalDesc] at hkv
  unfold withFinalScores at hkv
  rw [List.mem_map] at hkv
  obtain ⟨kv0, hkv0, rfl⟩ := hkv
  have hok := hinv kv0 hkv0
  obtain ⟨hb, hc0, hc1⟩ := hok
  split at hsome
  case isFalse => exact absurd hsome (by simp)
  case isTrue hcond =>
    have hr2 : r = ⟨kv0.1, kv0.2.title, kv0.2.content, kv0.2.chunk_index, kv0.2.total_chunks,
        kv0.2.bm25_score, kv0.2.cosine_score,
        kv0.2.bm25_score * kw + kv0.2.cosine_score * vw⟩ := by
      exact (Option.some.injEq _ _ ▸ hsome).symm
    subst hr2
    refine ⟨rfl, ?_, ?_, ?_⟩
    · exact add_nonneg (mul_nonneg hb hkw) (mul_nonneg hc0 hvw)
    · have h1 : kv0.2.bm25_score * kw ≤ (max kv0.2.bm25_score kv0.2.cosine_score) * kw :=
        mul_le_mul_of_nonneg_right (le_max_left _ _) hkw
      have h2 : kv0.2.cosine_score * vw ≤ (max kv0.2.bm25_score kv0.2.cosine_score) * vw :=
        mul_le_mul_of_nonneg_right (le_max_right _ _) hvw
      calc kv0.2.bm25_score * kw + kv0.2.cosine_score * vw
          ≤ (max kv0.2.bm25_score kv0.2.cosine_score) * kw +
              (max kv0.2.bm25_score kv0.2.cosine_score) * vw := add_le_add h1 h2
        _ = (kw + vw) * max kv0.2.bm25_score kv0.2.cosine_score := by ring
    · show kv0.2.bm25_score * kw + kv0.2.cosine_score * vw ≤ _
      have hmax0 : 0 ≤ max kv0.2.bm25_score kv0.2.cosine_score :=
        le_trans hb (le_max_left _ _)
      have hsum' : kw + vw ≤ 1 + 1/100 := by
        have := (abs_le.mp hsum).2
        linarith
      have h1 : kv0.2.bm25_score * kw ≤ (max kv0.2.bm25_score kv0.2.cosine_score) * kw :=
        mul_le_mul_of_nonneg_right (le_max_left _ _) hkw
      have h2 : kv0.2.cosine_score * vw ≤ (max kv0.2.bm25_score kv0.2.cosine_score) * vw :=
        mul_le_mul_of_nonneg_right (le_max_right _ _) hvw
      calc kv0.2.bm25_score * kw + kv0.2.cosine_score * vw
          ≤ (max kv0.2.bm25_score kv0.2.cosine_score) * kw +
              (max kv0.2.bm25_score kv0.2.cosine_score) * vw := add_le_add h1 h2
        _ = (kw + vw) * max kv0.2.bm25_score kv0.2.cosine_score := by ring
        _ ≤ (1 + 1/100) * max kv0.2.bm25_score kv0.2.cosine_score :=
            mul_le_mul_of_nonneg_right hsum' hmax0

/-- Claim C6, counterexample to the original statement: with weights
0.5/0.51 (sum 1.01, within the 0.01 tolerance) and a document scoring the
maximum in both modalities (raw lexical 9.0 of max 9.0, vector 1.0), the
fused hit's `final_score` is 1.01, strictly above
`max(lexicalScore, vectorScore) = 1`. -/
theorem c6_counterexample :
    |(1/2 : ℚ) + 51/100 - 1| ≤ 1/100 ∧
    (∀ h ∈ keyword_search_results ⟨[⟨"d1","t","c",0,1,9⟩], some 9⟩, 0 ≤ h.bm25_score) ∧
    (∀ h ∈ ([⟨"d1","t","c",0,1,1⟩] : List VecHit), 0 ≤ h.cosine_score ∧ h.cosine_score ≤ 1) ∧
    ∃ r ∈ hybrid_fuse (keyword_search_results ⟨[⟨"d1","t","c",0,1,9⟩], some 9⟩)
        [⟨"d1","t","c",0,1,1⟩] (1/2) (51/100) 0 5,
      ¬ (r.final_score ≤ max r.bm25_score r.cosine_score) := by
  have hfuse : hybrid_fuse (keyword_search_results ⟨[⟨"d1","t","c",0,1,9⟩], some 9⟩)
        [⟨"d1","t","c",0,1,1⟩] (1/2) (51/100) 0 5
      = [⟨"d1","t","c",0,1,1,1,101/100⟩] := by
    norm_num [hybrid_fuse, keyword_search_results, seedKeyword, addVector,
      withFinalScores, sortByFinalDesc, insertRanked, pySet, pyGet,
      List.foldl, List.foldr, List.filterMap]
  refine ⟨?_, ?_, ?_, ⟨"d1","t","c",0,1,1,1,101/100⟩, ?_, ?_⟩
  · rw [show (1/2 : ℚ) + 51/100 - 1 = 1/100 by norm_num,
      abs_of_nonneg (by norm_num : (0:ℚ) ≤ 1/100)]
  · norm_num [keyword_search_results]
  · norm_num
  · rw [hfuse]; exact List.mem_singleton.mpr rfl
  · norm_num

/-- Witness for the amended C6 at concrete hit sets and weights 0.3/0.7. -/
theorem c6_final_score_formula_and_bound_witness :
    (0:ℚ) ≤ 3/10 ∧ (0:ℚ) ≤ 7/10 ∧ |(3/10 : ℚ) + 7/10 - 1| ≤ 1/100 ∧
    (∀ h ∈ ([⟨"d1","t","c",0,1,9,1⟩] : List KwHit), 0 ≤ h.normalized_bm25) ∧
    (∀ h ∈ ([⟨"d2","t2","c2",0,1,4/5⟩] : List VecHit), 0 ≤ h.cosine_score ∧ h.cosine_score ≤ 1) ∧
    ∀ r ∈ hybrid_fuse [⟨"d1","t","c",0,1,9,1⟩] [⟨"d2","t2","c2",0,1,4/5⟩] (3/10) (7/10) 0 5,
      r.final_score = r.bm25_score * (3/10) + r.cosine_score * (7/10) ∧
      0 ≤ r.final_score ∧
      r.final_score ≤ ((3/10) + (7/10)) * max r.bm25_score r.cosine_score ∧
      r.final_score ≤ (1 + 1/100) * max r.bm25_score r.cosine_score := by
  have habs : |(3/10 : ℚ) + 7/10 - 1| ≤ 1/100 := by
    rw [show (3/10 : ℚ) + 7/10 - 1 = 0 by norm_num, abs_zero]
    norm_num
  exact ⟨by norm_num, by norm_num, habs, by norm_num, by norm_num,
    c6_final_score_formula_and_bound _ _ _ _ _ _ (by norm_num) (by norm_num) habs
      (by norm_num) (by norm_num)⟩

theorem string_ne_facts :
    (("doc1" : String) = "doc2") = False ∧ (("doc1" : String) = "doc3") = False ∧
    (("doc2" : String) = "doc3") = False ∧ (("doc2" : String) = "doc1") = False ∧
    (("doc3" : String) = "doc1") = False ∧ (("doc3" : String) = "doc2") = False := by
  refine ⟨?_, ?_, ?_, ?_, ?_, ?_⟩ <;> simp

/-- Claim C5: Scenario A of the specification.  Lexical hits doc1 (raw 9.0)
and doc2 (raw 3.0) normalize by the lexical maximum 9.0 to 1 and 1/3; with
vector hits doc2 (0.9) and doc3 (0.5), weights 0.3/0.7 and minScore 0, the
final scores are doc1 = 0.3, doc2 = (1/3)*0.3 + 0.9*0.7 = 0.73,
doc3 = 0.35, and the ranked order is `[doc2, doc3, doc1]`. -/
theorem c5_scenario_a :
    hybrid_search scenarioAEnv 5 (3/10) (7/10) 0 =
      [⟨"doc2", "t2", "c2", 0, 1, 1/3, 9/10, 73/100⟩,
       ⟨"doc3", "t3", "c3", 0, 1, 0, 1/2, 7/20⟩,
       ⟨"doc1", "t1", "c1", 0, 1, 1, 0, 3/10⟩] := by
  norm_num [hybrid_search, hybrid_fuse, scenarioAEnv, keyword_search_results,
    seedKeyword, addVector, withFinalScores, sortByFinalDesc, insertRanked,
    pySet, pyGet, List.foldl, List.foldr, List.filterMap,
    string_ne_facts.1, string_ne_facts.2.1, string_ne_facts.2.2.1,
    string_ne_facts.2.2.2.1, string_ne_facts.2.2.2.2.1, string_ne_facts.2.2.2.2.2]

/-- Claim C3: a hybrid-search call with `keyword_weight = 0.4` and
`vector_weight = 0.5` (sum deviating from 1.0 by 0.1 > 0.01) is rejected by
the route's validation with the `ValueError` message (served as HTTP 400),
and no fusion runs — whatever the external indexes would have answered. -/
theorem c3_invalid_weights_rejected (env : SearchEnv) (query : String)
    (top_k : Nat) (min_score : ℚ) :
    search_by_hybrid env query top_k (2/5) (1/2) min_score =
      Except.error "keyword_weight + vector_weight must equal 1.0" := by
  unfold search_by_hybrid
  rw [if_pos]
  rw [show (2/5 : ℚ) + 1/2 - 1 = -(1/10) by norm_num, abs_neg,
    abs_of_nonneg (by norm_num : (0:ℚ) ≤ 1/10)]
  norm_num

/-- Claim C2, code-bug evidence: a fused hit produced by `hybrid_search`
carries its relevance under the key `"final_score"` (here 0.73), but
`format_search_results_as_context` reads `result.get("score", 0)` — a key no
search path ever emits — so the rendered paragraph shows `관련도: 0.00`
instead of the hit's relevance score (which would render as "0.73"). -/
theorem c2_score_key_mismatch :
    hybrid_fuse (keyword_search_results ⟨[⟨"doc2","t2","c2",0,1,3⟩], some 9⟩)
        [⟨"doc2","t2","c2",0,1,9/10⟩] (3/10) (7/10) 0 5
      = [⟨"doc2","t2","c2",0,1,1/3,9/10,73/100⟩] ∧
    pyGet (FusedResult.toDict ⟨"doc2","t2","c2",0,1,1/3,9/10,73/100⟩) "score" = none ∧
    format_search_results_as_context [FusedResult.toDict ⟨"doc2","t2","c2",0,1,1/3,9/10,73/100⟩]
      = "다음은 검색된 관련 문서입니다:\n\n\n[문서 1] (관련도: 0.00)\n제목: t2\n내용: c2\n" ∧
    formatFloat2 (73/100) = "0.73" := by
  have hff0 : formatFloat2
      (dictScore (FusedResult.toDict ⟨"doc2","t2","c2",0,1,1/3,9/10,73/100⟩)) = "0.00" := by
    rw [show dictScore (FusedResult.toDict ⟨"doc2","t2","c2",0,1,1/3,9/10,73/100⟩) = 0 from rfl]
    unfold formatFloat2
    rw [show (⌊(0:ℚ) * 100 + 1/2⌋ : Int) = 0 by norm_num]
    rfl
  refine ⟨?_, rfl, ?_, ?_⟩
  · norm_num [hybrid_fuse, keyword_search_results, seedKeyword, addVector,
      withFinalScores, sortByFinalDesc, insertRanked, pySet, pyGet,
      List.foldl, List.foldr, List.filterMap]
  · unfold format_search_results_as_context
    rw [if_neg (by simp)]
    simp only [List.enum, List.enumFrom, List.map_cons, List.map_nil, hitParagraph,
      List.flatten, List.cons_append, List.nil_append, hff0]
    rfl
  · unfold formatFloat2
    rw [show (⌊(73/100:ℚ) * 100 + 1/2⌋ : Int) = 73 by norm_num]
    rfl

end FusionClaims

section WorkflowClaims

/-- Python `context.update(...)` folded over the outputs of a result list, in order:
the context an uninterrupted successful prefix leaves behind. -/
def foldOutputs (c : Ctx) (rs : List NodeExecutionResult) : Ctx :=
  rs.foldl (fun c' r => pyUpdate c' r.output) c

theorem foldl_nodeMap_mem (i : String) :
    ∀ (nodes : List WorkflowNode) (acc : Option WorkflowNode) (n : WorkflowNode),
      nodes.foldl (fun acc n' => if n'.id = i then some n' else acc) acc = some n →
      n ∈ nodes ∨ acc = some n := by
  intro nodes
  induction nodes with
  | nil => intro acc n h; exact Or.inr h
  | cons m ms ih =>
    intro acc n h
    simp only [List.foldl_cons] at h
    rcases ih _ _ h with hm | hm
    · exact Or.inl (List.mem_cons_of_mem _ hm)
    · by_cases hid : m.id = i
      · rw [if_pos hid] at hm
        exact Or.inl ((Option.some.inj hm) ▸ List.mem_cons_self _ _)
      · rw [if_neg hid] at hm
        exact Or.inr hm

theorem nodeMapGet_mem (nodes : List WorkflowNode) (i : String) (n : WorkflowNode)
    (h : nodeMapGet nodes i = some n) : n ∈ nodes := by
  unfold nodeMapGet at h
  rcases foldl_nodeMap_mem i nodes none n h with hm | hm
  · exact hm
  · simp at hm

theorem execute_node_success_no_error (env : WorkflowEnv) (n : WorkflowNode) (c : Ctx)
    (h : (execute_node env n c).success = true) : (execute_node env n c).error = none := by
  cases hb : nodeBody env n c with
  | ok v => simp [execute_node, hb]
  | error e => simp [execute_node, hb] at h

/-- If every node of the list always succeeds, is not an `end` node, and has
a first successor that is non-empty and resolvable, the loop consumes all of
its fuel, appending one successful, error-free result per unit of fuel. -/
theorem workflowLoop_exhausts_fuel (env : WorkflowEnv) (nodes : List WorkflowNode)
    (hall : ∀ n ∈ nodes, (∀ c, (execute_node env n c).success = true) ∧
      n.type ≠ NodeType.end_ ∧
      ∃ nid2 rest, n.next_nodes = nid2 :: rest ∧ nid2 ≠ "" ∧
        ∃ n2, nodeMapGet nodes nid2 = some n2) :
    ∀ (fuel : Nat) (nid : String) (ctx : Ctx) (results : List NodeExecutionResult),
      nid ≠ "" → (∃ node, nodeMapGet nodes nid = some node) →
      ∃ tail, (workflowLoop env nodes fuel nid ctx results).2 = results ++ tail ∧
        tail.length = fuel ∧ ∀ r ∈ tail, r.success = true ∧ r.error = none := by
  intro fuel
  induction fuel with
  | zero =>
    intro nid ctx results _ _
    exact ⟨[], by simp [workflowLoop], rfl, by simp⟩
  | succ fuel ih =>
    intro nid ctx results hnid hres
    obtain ⟨node, hget⟩ := hres
    have hmem := nodeMapGet_mem nodes nid node hget
    obtain ⟨hsucc, hend, nid2, rest, hnext, hnid2, hres2⟩ := hall node hmem
    obtain ⟨tail, htail, hlen, hsall⟩ :=
      ih nid2 (pyUpdate ctx (execute_node env node ctx).output)
        (results ++ [execute_node env node ctx]) hnid2 hres2
    refine ⟨execute_node env node ctx :: tail, ?_, by simp [hlen], ?_⟩
    · show (workflowLoop env nodes (fuel + 1) nid ctx results).2 = _
      simp only [workflowLoop, if_neg hnid, hget]
      rw [if_pos (hsucc ctx), if_neg hend, hnext]
      rw [htail, List.append_assoc, List.singleton_append]
    · intro r hr
      rcases List.mem_cons.mp hr with hr | hr
      · exact hr ▸ ⟨hsucc ctx, execute_node_success_no_error env node ctx (hsucc ctx)⟩
      · exact hsall r hr

/-- Claim C1, counterexample to the original statement: on the cyclic
workflow `a → b → a` (all nodes succeed), `execute_workflow` does halt after
exactly 50 node executions, but the returned record is indistinguishable
from an ordinary successful completion — `success = true` and every recorded
result has `success = true` and no error; the response carries no
`StepLimitExceeded` (or any other step-limit) indication. -/
theorem c1_step_limit_counterexample :
    (execute_workflow noopEnv cycleWorkflow []).nodes_executed.length = 50 ∧
    (execute_workflow noopEnv cycleWorkflow []).success = true ∧
    (execute_workflow noopEnv cycleWorkflow []).nodes_executed.all
      (fun r => r.success && r.error.isNone) = true := by
  refine ⟨?_, ?_, ?_⟩ <;> decide

/-- Claim C1 as amended: for every workflow whose `next_nodes` chain can
never reach a terminal node (every node always succeeds, is not an `end`
node, and has a non-empty, resolvable first successor — as in a cycle),
`execute_workflow` halts after exactly the `max_iterations = 50` step
ceiling, but reports the run like an ordinary completion: overall
`success = true` and all 50 recorded results successful and error-free,
with no distinguishable step-limit outcome in the response. -/
theorem c1_ceiling_halts_as_ordinary_completion (env : WorkflowEnv)
    (w : WorkflowDefinition) (input : Ctx)
    (hstart : w.start_node_id ≠ "")
    (hstart2 : ∃ n, nodeMapGet w.nodes w.start_node_id = some n)
    (hall : ∀ n ∈ w.nodes, (∀ c, (execute_node env n c).success = true) ∧
      n.type ≠ NodeType.end_ ∧
      ∃ nid2 rest, n.next_nodes = nid2 :: rest ∧ nid2 ≠ "" ∧
        ∃ n2, nodeMapGet w.nodes nid2 = some n2) :
    (execute_workflow env w input).nodes_executed.length = 50 ∧
    (execute_workflow env w input).success = true ∧
    ∀ r ∈ (execute_workflow env w input).nodes_executed, r.success = true ∧ r.error = none := by
  obtain ⟨tail, htail, hlen, hsall⟩ :=
    workflowLoop_exhausts_fuel env w.nodes hall max_iterations w.start_node_id input []
      hstart hstart2
  have hne : (execute_workflow env w input).nodes_executed = tail := by
    simpa [execute_workflow] using htail
  refine ⟨by rw [hne]; exact hlen, ?_, ?_⟩
  · show (workflowLoop env w.nodes max_iterations w.start_node_id input []).2.all
      (fun r => r.success) = true
    rw [htail]
    simp only [List.nil_append]
    exact List.all_eq_true.mpr (fun r hr => (hsall r hr).1)
  · intro r hr
    rw [hne] at hr
    exact hsall r hr

/-- Witness for the amended C1 at the concrete cyclic workflow `a → b → a`. -/
theorem c1_ceiling_halts_as_ordinary_completion_witness :
    (execute_workflow noopEnv cycleWorkflow []).nodes_executed.length = 50 ∧
    (execute_workflow noopEnv cycleWorkflow []).success = true ∧
    ∀ r ∈ (execute_workflow noopEnv cycleWorkflow []).nodes_executed,
      r.success = true ∧ r.error = none := by
  refine c1_ceiling_halts_as_ordinary_completion noopEnv cycleWorkflow [] (by decide)
    ⟨⟨"a", NodeType.variable_, "A", {}, ["b"]⟩, by decide⟩ ?_
  intro n hn
  fin_cases hn
  · exact ⟨fun c => rfl, by decide, "b", [], rfl, by decide,
      ⟨⟨"b", NodeType.variable_, "B", {}, ["a"]⟩, by decide⟩⟩
  · exact ⟨fun c => rfl, by decide, "a", [], rfl, by decide,
      ⟨⟨"a", NodeType.variable_, "A", {}, ["b"]⟩, by decide⟩⟩

/-- Structure of any loop run: the recorded results split into a successful
prefix (whose outputs are merged into the context, in order) optionally
terminated by a single failing result, which is always last and leaves the
context unmerged. -/
theorem workflowLoop_split (env : WorkflowEnv) (nodes : List WorkflowNode) :
    ∀ (fuel : Nat) (nid : String) (ctx : Ctx) (results : List NodeExecutionResult),
      ∃ tail, (workflowLoop env nodes fuel nid ctx results).2 = results ++ tail ∧
        (((∀ r ∈ tail, r.success = true) ∧
            (workflowLoop env nodes fuel nid ctx results).1 = foldOutputs ctx tail) ∨
         (∃ pre fl, tail = pre ++ [fl] ∧ (∀ r ∈ pre, r.success = true) ∧ fl.success = false ∧
            (workflowLoop env nodes fuel nid ctx results).1 = foldOutputs ctx pre)) := by
  intro fuel
  induction fuel with
  | zero =>
    intro nid ctx results
    exact ⟨[], by simp [workflowLoop], Or.inl ⟨by simp, by simp [workflowLoop, foldOutputs]⟩⟩
  | succ fuel ih =>
    intro nid ctx results
    by_cases hnid : nid = ""
    · exact ⟨[], by simp [workflowLoop, hnid],
        Or.inl ⟨by simp, by simp [workflowLoop, hnid, foldOutputs]⟩⟩
    · cases hget : nodeMapGet nodes nid with
      | none =>
        refine ⟨[], ?_, Or.inl ⟨by simp, ?_⟩⟩
        · simp [workflowLoop, hnid, hget]
        · simp [workflowLoop, hnid, hget, foldOutputs]
      | some node =>
        set r := execute_node env node ctx with hr
        by_cases hsucc : r.success = true
        · by_cases hend : node.type = NodeType.end_
          · refine ⟨[r], ?_, Or.inl ⟨by simp [hsucc], ?_⟩⟩
            · simp [workflowLoop, hnid, hget, if_pos hsucc, hend]
            · simp [workflowLoop, hnid, hget, if_pos hsucc, hend, foldOutputs]
          · cases hnext : node.next_nodes with
            | nil =>
              refine ⟨[r], ?_, Or.inl ⟨by simp [hsucc], ?_⟩⟩
              · simp [workflowLoop, hnid, hget, if_pos hsucc, hend, hnext]
              · simp [workflowLoop, hnid, hget, if_pos hsucc, hend, hnext, foldOutputs]
            | cons nid2 rest =>
              obtain ⟨tail, htail, hcase⟩ := ih nid2 (pyUpdate ctx r.output) (results ++ [r])
              have hloop : workflowLoop env nodes (fuel + 1) nid ctx results =
                  workflowLoop env nodes fuel nid2 (pyUpdate ctx r.output) (results ++ [r]) := by
                simp only [workflowLoop, if_neg hnid, hget]
                rw [if_pos hsucc, if_neg hend, hnext]
              refine ⟨r :: tail, ?_, ?_⟩
              · rw [hloop, htail, List.append_assoc, List.singleton_append]
              · rcases hcase with ⟨hall, hctx⟩ | ⟨pre, fl, htl, hpre, hfl, hctx⟩
                · exact Or.inl ⟨fun x hx => by
                    rcases List.mem_cons.mp hx with hx | hx
                    · exact hx ▸ hsucc
                    · exact hall x hx,
                    by rw [hloop, hctx]; simp [foldOutputs]⟩
                · refine Or.inr ⟨r :: pre, fl, by rw [htl]; rfl, fun x hx => ?_, hfl, ?_⟩
                  · rcases List.mem_cons.mp hx with hx | hx
                    · exact hx ▸ hsucc
                    · exact hpre x hx
                  · rw [hloop, hctx]; simp [foldOutputs]
        · refine ⟨[r], ?_, Or.inr ⟨[], r, rfl, by simp, by simpa using hsucc, ?_⟩⟩
          · simp [workflowLoop, hnid, hget, ← hr, hsucc]
          · simp [workflowLoop, hnid, hget, ← hr, hsucc, foldOutputs]

/-- Claim C7: if the `i`-th executed node of a run is the first to fail,
`nodes_executed` contains exactly `i + 1` entries (the successful first `i`
and the failing one; no node after the failure point executes), the overall
`success` flag is `false` and equals the AND of every executed node's flag,
and `output_data` is the input context with the outputs of the `i`
successful nodes merged in order — retained, with no rollback. -/
theorem c7_first_failure_truncates_run (env : WorkflowEnv) (w : WorkflowDefinition)
    (input : Ctx) (i : Nat) (r : NodeExecutionResult)
    (hi : (execute_workflow env w input).nodes_executed.get? i = some r)
    (hfail : r.success = false)
    (hprior : ∀ (j : Nat) (r' : NodeExecutionResult), j < i →
      (execute_workflow env w input).nodes_executed.get? j = some r' → r'.success = true) :
    (execute_workflow env w input).nodes_executed.length = i + 1 ∧
    (execute_workflow env w input).success = false ∧
    (execute_workflow env w input).output_data =
      foldOutputs input ((execute_workflow env w input).nodes_executed.take i) ∧
    (execute_workflow env w input).success =
      (execute_workflow env w input).nodes_executed.all (fun r' => r'.success) := by
  obtain ⟨tail, htail, hcase⟩ :=
    workflowLoop_split env w.nodes max_iterations w.start_node_id input []
  have hne : (execute_workflow env w input).nodes_executed = tail := by
    simpa [execute_workflow] using htail
  have hout : (execute_workflow env w input).output_data =
      (workflowLoop env w.nodes max_iterations w.start_node_id input []).1 := rfl
  rcases hcase with ⟨hall, _⟩ | ⟨pre, fl, htl, hpre, hfl, hctx⟩
  · exfalso
    have hrms : r ∈ tail := by
      rw [hne] at hi
      exact List.get?_mem hi
    rw [hall r hrms] at hfail
    exact Bool.noConfusion hfail
  · have hilen : i = pre.length := by
      rcases Nat.lt_trichotomy i pre.length with hlt | heq | hgt
      · exfalso
        have hgp : (execute_workflow env w input).nodes_executed.get? i = pre.get? i := by
          rw [hne, htl]
          exact List.get?_append hlt
        rw [hgp] at hi
        have hrp : r ∈ pre := List.get?_mem hi
        rw [hpre r hrp] at hfail
        exact Bool.noConfusion hfail
      · exact heq
      · exfalso
        have hgn : (execute_workflow env w input).nodes_executed.get? i = none := by
          rw [hne, List.get?_eq_none, htl]
          simp
          omega
        rw [hgn] at hi
        exact Option.noConfusion hi
    subst hilen
    refine ⟨?_, ?_, ?_, rfl⟩
    · rw [hne, htl]
      simp
    · show (workflowLoop env w.nodes max_iterations w.start_node_id input []).2.all
        (fun r' => r'.success) = false
      rw [htail]
      simp only [List.nil_append, htl, List.all_append, List.all_cons, List.all_nil]
      rw [hfl]
      simp
    · rw [hout, hctx, hne, htl, List.take_left]

/-- Witness for C7: under `errLLMEnv` the run of `failMidWorkflow` executes
the `variable` node `a` successfully, fails at the `llm` node `b` (index 1),
and node `c` never executes. -/
theorem c7_first_failure_truncates_run_witness :
    (execute_workflow errLLMEnv failMidWorkflow []).nodes_executed.length = 1 + 1 ∧
    (execute_workflow errLLMEnv failMidWorkflow []).success = false ∧
    (execute_workflow errLLMEnv failMidWorkflow []).output_data =
      foldOutputs [] ((execute_workflow errLLMEnv failMidWorkflow []).nodes_executed.take 1) ∧
    (execute_workflow errLLMEnv failMidWorkflow []).success =
      (execute_workflow errLLMEnv failMidWorkflow []).nodes_executed.all (fun r' => r'.success) := by
  refine c7_first_failure_truncates_run errLLMEnv failMidWorkflow [] 1
    ⟨"b", "B", NodeType.llm, [], false, some "LLM unreachable"⟩ (by decide) (by decide) ?_
  intro j r' hj hg
  have hj0 : j = 0 := by omega
  subst hj0
  have h0 : (execute_workflow errLLMEnv failMidWorkflow []).nodes_executed.get? 0 =
      some ⟨"a", "A", NodeType.variable_, [("x", PyVal.vStr "1")], true, none⟩ := by decide
  rw [h0] at hg
  rw [← Option.some.inj hg]

/-- Claim C9: when the operator script of a `code` node raises, the node's
result still has `success = true` (with no `error`), its output is the dict
`{"error": message}`, that output is merged into the shared context, and the
loop moves on to the node's first successor instead of halting — a script
failure never terminates the run by itself. -/
theorem c9_code_script_error_continues (env : WorkflowEnv) (node : WorkflowNode)
    (ctx : Ctx) (msg : String)
    (htype : node.type = NodeType.code)
    (hrun : env.runScript (node.config.code.getD "") ctx = Except.error msg) :
    (execute_node env node ctx).success = true ∧
    (execute_node env node ctx).output = [("error", PyVal.vStr msg)] ∧
    (execute_node env node ctx).error = none ∧
    ∀ (nodes : List WorkflowNode) (results : List NodeExecutionResult)
      (nid : String) (fuel : Nat) (nid2 : String) (rest : List String),
      nid ≠ "" → nodeMapGet nodes nid = some node → node.next_nodes = nid2 :: rest →
      workflowLoop env nodes (fuel + 1) nid ctx results =
        workflowLoop env nodes fuel nid2 (pyUpdate ctx [("error", PyVal.vStr msg)])
          (results ++ [execute_node env node ctx]) := by
  have hbody : nodeBody env node ctx = Except.ok [("error", PyVal.vStr msg)] := by
    unfold nodeBody execute_code_node
    rw [htype]
    simp only [hrun]
  have hr : execute_node env node ctx =
      ⟨node.id, node.name, node.type, [("error", PyVal.vStr msg)], true, none⟩ := by
    unfold execute_node
    rw [hbody]
  have hend : node.type ≠ NodeType.end_ := by rw [htype]; decide
  refine ⟨by rw [hr], by rw [hr], by rw [hr], ?_⟩
  intro nodes results nid fuel nid2 rest hnid hget hnext
  have hsucc : (execute_node env node ctx).success = true := by rw [hr]
  have hout : (execute_node env node ctx).output = [("error", PyVal.vStr msg)] := by rw [hr]
  simp only [workflowLoop, if_neg hnid, hget]
  rw [if_pos hsucc, if_neg hend, hnext, hout]

/-- Witness for C9 at the concrete `code` node of `codeWorkflow` under
`errScriptEnv`. -/
theorem c9_code_script_error_continues_witness :
    (execute_node errScriptEnv codeNodeA []).success = true ∧
    (execute_node errScriptEnv codeNodeA []).output = [("error", PyVal.vStr "name x is not defined")] ∧
    (execute_node errScriptEnv codeNodeA []).error = none ∧
    workflowLoop errScriptEnv codeWorkflow.nodes (49 + 1) "a" [] [] =
      workflowLoop errScriptEnv codeWorkflow.nodes 49 "b"
        (pyUpdate [] [("error", PyVal.vStr "name x is not defined")])
        ([] ++ [execute_node errScriptEnv codeNodeA []]) := by
  have h := c9_code_script_error_continues errScriptEnv codeNodeA [] "name x is not defined" rfl rfl
  exact ⟨h.1, h.2.1, h.2.2.1,
    h.2.2.2 codeWorkflow.nodes [] "a" 49 "b" [] (by decide) (by decide) rfl⟩

/-- If the instrumented replay reports that the run from a given state ends
at a failed node lookup, then every result the loop records from that state
is successful. -/
theorem loopHaltsOnMissing_all_success (env : WorkflowEnv) (nodes : List WorkflowNode) :
    ∀ (fuel : Nat) (nid : String) (ctx : Ctx) (results : List NodeExecutionResult),
      loopHaltsOnMissing env nodes fuel nid ctx = true →
      (∀ r ∈ results, r.success = true) →
      ∀ r ∈ (workflowLoop env nodes fuel nid ctx results).2, r.success = true := by
  intro fuel
  induction fuel with
  | zero =>
    intro nid ctx results hmiss _
    simp [loopHaltsOnMissing] at hmiss
  | succ fuel ih =>
    intro nid ctx results hmiss hres
    by_cases hnid : nid = ""
    · simp [loopHaltsOnMissing, hnid] at hmiss
    · cases hget : nodeMapGet nodes nid with
      | none =>
        intro r hr
        simp only [workflowLoop, if_neg hnid, hget] at hr
        exact hres r hr
      | some node =>
        by_cases hsucc : (execute_node env node ctx).success = true
        · by_cases hend : node.type = NodeType.end_
          · exfalso
            simp [loopHaltsOnMissing, hnid, hget, hsucc, hend] at hmiss
          · cases hnext : node.next_nodes with
            | nil =>
              exfalso
              simp [loopHaltsOnMissing, hnid, hget, hsucc, hend, hnext] at hmiss
            | cons nid2 rest =>
              have hmiss2 : loopHaltsOnMissing env nodes fuel nid2
                  (pyUpdate ctx (execute_node env node ctx).output) = true := by
                simpa [loopHaltsOnMissing, hnid, hget, hsucc, hend, hnext] using hmiss
              have hloop : workflowLoop env nodes (fuel + 1) nid ctx results =
                  workflowLoop env nodes fuel nid2 (pyUpdate ctx (execute_node env node ctx).output)
                    (results ++ [execute_node env node ctx]) := by
                simp only [workflowLoop, if_neg hnid, hget]
                rw [if_pos hsucc, if_neg hend, hnext]
              rw [hloop]
              refine ih nid2 _ _ hmiss2 ?_
              intro r hr
              rcases List.mem_append.mp hr with hr | hr
              · exact hres r hr
              · rw [List.mem_singleton] at hr
                exact hr ▸ hsucc
        · exfalso
          simp [loopHaltsOnMissing, hnid, hget, hsucc] at hmiss

/-- Claim C10: a run that halts because the current node identifier (the
`start_node_id` or a first successor) matches no node in the workflow's node
list raises no error and reports overall `success = true`: `success` is the
AND over only the nodes actually executed, all of which succeeded (vacuously
so when the very first lookup fails and `nodes_executed` is empty). -/
theorem c10_missing_node_reports_success (env : WorkflowEnv) (w : WorkflowDefinition)
    (input : Ctx)
    (hmiss : loopHaltsOnMissing env w.nodes max_iterations w.start_node_id input = true) :
    (execute_workflow env w input).success = true ∧
    (∀ r ∈ (execute_workflow env w input).nodes_executed, r.success = true) ∧
    (execute_workflow env w input).success =
      (execute_workflow env w input).nodes_executed.all (fun r' => r'.success) ∧
    (nodeMapGet w.nodes w.start_node_id = none →
      (execute_workflow env w input).nodes_executed = []) := by
  have hall : ∀ r ∈ (workflowLoop env w.nodes max_iterations w.start_node_id input []).2,
      r.success = true :=
    loopHaltsOnMissing_all_success env w.nodes max_iterations w.start_node_id input []
      hmiss (by simp)
  refine ⟨?_, hall, rfl, ?_⟩
  · exact List.all_eq_true.mpr (fun r hr => hall r hr)
  · intro hnone
    show (workflowLoop env w.nodes max_iterations w.start_node_id input []).2 = []
    by_cases hnid : w.start_node_id = ""
    · simp [max_iterations, workflowLoop, hnid]
    · simp [max_iterations, workflowLoop, hnid, hnone]

/-- Witness for C10 at `ghostWorkflow`, whose `start_node_id` `"zz"` matches
no node. -/
theorem c10_missing_node_reports_success_witness :
    loopHaltsOnMissing noopEnv ghostWorkflow.nodes max_iterations ghostWorkflow.start_node_id [] = true ∧
    (execute_workflow noopEnv ghostWorkflow []).success = true ∧
    (∀ r ∈ (execute_workflow noopEnv ghostWorkflow []).nodes_executed, r.success = true) ∧
    (execute_workflow noopEnv ghostWorkflow []).success =
      (execute_workflow noopEnv ghostWorkflow []).nodes_executed.all (fun r' => r'.success) ∧
    (nodeMapGet ghostWorkflow.nodes ghostWorkflow.start_node_id = none →
      (execute_workflow noopEnv ghostWorkflow []).nodes_executed = []) :=
  ⟨by decide, c10_missing_node_reports_success noopEnv ghostWorkflow [] (by decide)⟩

end WorkflowClaims
